import Mathlib

/-!
Shallow embedding of the `xf-tools` MIDI lead-sheet converter
(`src/converter.py`) together with proofs about its behaviour:

* the Yamaha-XF binary chord decoder (`_parse_xf_chord_sysex`),
* the XF rehearsal-mark decoder (`_parse_rehe_from_midi`),
* the melody extractor (`_parse_melody_with_mido`),
* the chord-figure normalizer (`_normalize_chord_figure`),
* the free-text chord heuristic of `_parse_chords_from_midi`,
* the open/decode error-handling structure of the scans.

Python dictionaries with contiguous integer keys are embedded as list
lookups, machine bytes as `Nat`, the `(delta, message)` stream as a list of
messages, fallible external resources (`mido.MidiFile` opening) as
`Except`, and the external `music21` chord-symbol validator as an opaque
boolean predicate parameter.
-/

/-- Accidental display table: `XF_ROOT_DISP` of the source
(`{0: "bbb", 1: "bb", 2: "b", 3: "", 4: "#", 5: "##", 6: "###"}`),
with the dictionary of contiguous keys 0–6 embedded as a list lookup. -/
def XfRootDispTable : List String := ["bbb", "bb", "b", "", "#", "##", "###"]

/-- `XF_ROOT_DISP.get(fff)` of the source. -/
def XfRootDisp (n : Nat) : Option String := XfRootDispTable.get? n

/-- Note-letter table `XF_ROOT_NOTE` of the source
(`{1: "C", 2: "D", 3: "E", 4: "F", 5: "G", 6: "A", 7: "B"}`), keys 1–7. -/
def XfRootNote (n : Nat) : Option String :=
  match n with
  | 1 => some "C"
  | 2 => some "D"
  | 3 => some "E"
  | 4 => some "F"
  | 5 => some "G"
  | 6 => some "A"
  | 7 => some "B"
  | _ => none

/-- Chord-quality table `XF_CHORD_TYPES` of the source: contiguous keys
`0x00`–`0x22`, embedded as a 35-entry list. -/
def XfChordTypesTable : List String :=
  ["", "6", "maj7", "maj7(#11)", "add9", "maj9", "6(9)", "aug",
   "m", "m6", "m7", "m7b5", "m(add9)", "m9", "m11", "m(maj7)",
   "m(maj7,9)", "dim", "dim7", "7", "7sus4", "7b5", "7(9)", "7(#11)",
   "7(13)", "7(b9)", "7(b13)", "7(#9)", "maj7aug", "7aug", "1+8", "1+5",
   "sus4", "1+2+5", "N.C."]

/-- `XF_CHORD_TYPES.get(ct)` of the source. -/
def XfChordTypes (n : Nat) : Option String := XfChordTypesTable.get? n

/-- Rehearsal base-label table `XF_REHE_BASE` of the source: contiguous
keys 0–15 (`Intro, Ending, Fill-in, A..M`), embedded as a list. -/
def XfReheBaseTable : List String :=
  ["Intro", "Ending", "Fill-in",
   "A", "B", "C", "D", "E", "F", "G", "H", "I", "J", "K", "L", "M"]

/-- `XF_REHE_BASE.get(idx, "?")` of the source (defaulted lookup). -/
def XfReheBase (n : Nat) : Option String := XfReheBaseTable.get? n

/-- `parse_note_byte` of the source (local to `_parse_xf_chord_sysex`):
byte `127` means "no note"; otherwise bits 4–6 select the accidental
display and bits 0–3 the note letter, failing on out-of-range values.
Shared by root-byte and bass-byte decoding. -/
def parse_note_byte (note_byte : Nat) : Option String :=
  if note_byte = 127 then none
  else
    match XfRootDisp ((note_byte >>> 4) &&& 7), XfRootNote (note_byte &&& 15) with
    | some disp_str, some note_str => some (note_str ++ disp_str)
    | some _, none => none
    | none, _ => none

/-- `_parse_xf_chord_sysex` of the source: decode a 2–4 byte XF chord
payload (0x7F separators already stripped) into a chord-figure string,
or `none` (the `Unrecognized` outcome) on failure. -/
def parse_xf_chord_sysex (chord_bytes : List Nat) : Option String :=
  if 2 ≤ chord_bytes.length ∧ chord_bytes.length ≤ 4 then
    match XfChordTypes (chord_bytes.getD 1 0) with
    | none => none
    | some type_str =>
      if type_str = "N.C." then some "N.C."
      else
        match parse_note_byte (chord_bytes.getD 0 0) with
        | none => none
        | some root_str =>
          match parse_note_byte (chord_bytes.getD 2 127) with
          | some bass_str =>
            if root_str ≠ bass_str then some (root_str ++ type_str ++ "/" ++ bass_str)
            else some (root_str ++ type_str)
          | none => some (root_str ++ type_str)
  else none

/-- C2 counterexample support: decoding `(0x32, 0x02, 0x45)` gives
`"Dmaj7/G#"` (bass letter nibble 5 is G in `XF_ROOT_NOTE`), not the
`"Dmaj7/F#"` the spec sentence states. -/
theorem c2_counterexample : parse_xf_chord_sysex [0x32, 0x02, 0x45] ≠ some "Dmaj7/F#" := by
  decide

/-- C2 (amended): decoding the chord byte sequence `(0x32, 0x02, 0x45)`
yields the figure `"Dmaj7/G#"`: root D natural, chord type `0x02` = maj7,
bass G# (accidental nibble 4 = `#`, letter nibble 5 = G), with the slash
suffix shown because root and bass differ. -/
theorem c2_decode_0x32_0x02_0x45 : parse_xf_chord_sysex [0x32, 0x02, 0x45] = some "Dmaj7/G#" := by
  decide

/-- C3: for every chord byte sequence of length 2 to 4 whose type byte is
the no-chord code `0x22`, the decoder returns the literal sentinel
`"N.C."`, regardless of the root byte and any bass byte (even
undecodable ones). -/
theorem c3_no_chord_sentinel (cb : List Nat) (h2 : 2 ≤ cb.length) (h4 : cb.length ≤ 4)
    (hty : cb.getD 1 0 = 0x22) : parse_xf_chord_sysex cb = some "N.C." := by
  unfold parse_xf_chord_sysex
  rw [if_pos ⟨h2, h4⟩, hty]
  rfl

/-- C3 witness: the payload `(0x00, 0x22, 0x00)` — whose root byte and
bass byte are both undecodable (letter nibble 0) — still decodes to
`"N.C."`. -/
theorem c3_no_chord_sentinel_witness : parse_xf_chord_sysex [0x00, 0x22, 0x00] = some "N.C." :=
  c3_no_chord_sentinel [0x00, 0x22, 0x00] (by decide) (by decide) (by decide)

/-- Slash-freeness of a chord figure: the character `/` does not occur. -/
def slashFree (s : String) : Prop := '/' ∉ s.data

instance (s : String) : Decidable (slashFree s) := by
  unfold slashFree; infer_instance

/-- Every accidental-display string of the table is slash-free. -/
theorem rootDisp_slashFree (n : Nat) (s : String) (h : XfRootDisp n = some s) :
    slashFree s := by
  have hm : s ∈ XfRootDispTable := by
    unfold XfRootDisp at h
    exact List.get?_mem h
  fin_cases hm <;> decide

/-- Every note-letter string of the table is slash-free. -/
theorem rootNote_slashFree (n : Nat) (s : String) (h : XfRootNote n = some s) :
    slashFree s := by
  unfold XfRootNote at h
  rcases n with _ | _ | _ | _ | _ | _ | _ | _ | n <;>
    simp_all <;> subst h <;> decide

/-- Every chord-type string of the table is slash-free. -/
theorem chordTypes_slashFree (n : Nat) (s : String) (h : XfChordTypes n = some s) :
    slashFree s := by
  have hm : s ∈ XfChordTypesTable := by
    unfold XfChordTypes at h
    exact List.get?_mem h
  fin_cases hm <;> decide

/-- Concatenating strings concatenates their character lists. -/
theorem string_data_append (s t : String) : (s ++ t).data = s.data ++ t.data := rfl

/-- A decoded note string (note letter ++ accidental display) is slash-free. -/
theorem parse_note_byte_slashFree (b : Nat) (s : String) (h : parse_note_byte b = some s) :
    slashFree s := by
  unfold parse_note_byte at h
  split at h
  · exact absurd h (by simp)
  · split at h
    · rename_i disp note hdisp hnote
      rw [Option.some_inj] at h
      subst h
      have h1 := rootNote_slashFree _ _ hnote
      have h2 := rootDisp_slashFree _ _ hdisp
      unfold slashFree at h1 h2 ⊢
      rw [string_data_append]
      simp [h1, h2]
    · exact absurd h (by simp)
    · exact absurd h (by simp)

/-- Core lemma for C4: whenever the bass byte decodes to nothing or to the
same note string as the root byte, the decoded figure is slash-free. -/
theorem parse_xf_slashFree_aux (cb : List Nat) (s : String)
    (hbass : parse_note_byte (cb.getD 2 127) = none ∨
      parse_note_byte (cb.getD 2 127) = parse_note_byte (cb.getD 0 0))
    (h : parse_xf_chord_sysex cb = some s) : slashFree s := by
  unfold parse_xf_chord_sysex at h
  split at h
  · split at h
    · exact absurd h (by simp)
    · rename_i type_str hty
      split at h
      · rw [Option.some_inj] at h
        subst h
        decide
      · split at h
        · exact absurd h (by simp)
        · rename_i root_str hroot
          split at h
          · rename_i bass_str hb
            rcases hbass with hbass | hbass
            · rw [hbass] at hb; exact absurd hb (by simp)
            · rw [hbass, hroot, Option.some_inj] at hb
              subst hb
              rw [if_neg (by simp)] at h
              rw [Option.some_inj] at h
              subst h
              unfold slashFree
              rw [string_data_append]
              have h1 := parse_note_byte_slashFree _ _ hroot
              have h2 := chordTypes_slashFree _ _ hty
              unfold slashFree at h1 h2
              simp [h1, h2]
          · rw [Option.some_inj] at h
            subst h
            unfold slashFree
            rw [string_data_append]
            have h1 := parse_note_byte_slashFree _ _ hroot
            have h2 := chordTypes_slashFree _ _ hty
            unfold slashFree at h1 h2
            simp [h1, h2]
  · exact absurd h (by simp)

/-- C4: the chord decoder emits no slash-bass suffix whenever the bass is
absent or equal to the root: (1) for every `(root_byte, type_byte)` pair
with no third byte the output contains no `/`; (2) a present bass byte of
value 127 ("no explicit bass") yields no suffix; (3) when the decoded
bass equals the decoded root, no slash suffix is emitted. -/
theorem c4_no_slash_suffix :
    (∀ a b : Nat, ∀ s, parse_xf_chord_sysex [a, b] = some s → slashFree s) ∧
    (∀ cb : List Nat, cb.get? 2 = some 127 →
      ∀ s, parse_xf_chord_sysex cb = some s → slashFree s) ∧
    (∀ cb : List Nat,
      parse_note_byte (cb.getD 2 127) = parse_note_byte (cb.getD 0 0) →
      ∀ s, parse_xf_chord_sysex cb = some s → slashFree s) := by
  refine ⟨?_, ?_, ?_⟩
  · intro a b s h
    refine parse_xf_slashFree_aux [a, b] s (Or.inl ?_) h
    show parse_note_byte ([a, b].getD 2 127) = none
    rfl
  · intro cb h127 s h
    refine parse_xf_slashFree_aux cb s (Or.inl ?_) h
    have : cb.getD 2 127 = 127 := by
      unfold List.getD
      rw [h127]
      rfl
    rw [this]
    decide
  · intro cb heq s h
    exact parse_xf_slashFree_aux cb s (Or.inr heq) h

/-- C4 witness: `(0x31, 0x00)` decodes to `"C"` which is slash-free; and
`(0x31, 0x00, 0x7F)` (explicit bass byte 127) likewise; and
`(0x31, 0x00, 0x31)` (decoded bass equal to decoded root) likewise. -/
theorem c4_no_slash_suffix_witness :
    (parse_xf_chord_sysex [0x31, 0x00] = some "C" ∧ slashFree "C") ∧
    (parse_xf_chord_sysex [0x31, 0x00, 0x7F] = some "C" ∧ slashFree "C") ∧
    (parse_xf_chord_sysex [0x31, 0x00, 0x31] = some "C" ∧ slashFree "C") :=
  ⟨⟨by decide, c4_no_slash_suffix.1 0x31 0x00 "C" (by decide)⟩,
   ⟨by decide, c4_no_slash_suffix.2.1 [0x31, 0x00, 0x7F] (by decide) "C" (by decide)⟩,
   ⟨by decide, c4_no_slash_suffix.2.2 [0x31, 0x00, 0x31] (by decide) "C" (by decide)⟩⟩

/-- C1 counterexample: the payload `(0x31, 0x00, 0x00)` has a bass byte
whose letter nibble is 0, outside the valid range 1–7, so by the claim the
decoder should signal `Unrecognized` (return no figure); instead it
decodes to the figure `"C"` (the failed bass is silently dropped). -/
theorem c1_counterexample : parse_xf_chord_sysex [0x31, 0x00, 0x00] = some "C" := by
  decide

/-- C1 (amended): for byte sequences of length 2 to 4, an undecodable
type byte or an undecodable root byte (out-of-range accidental or letter
nibble, or the value 127) makes the decoder signal `Unrecognized`;
root-byte and bass-byte decoding share the routine `parse_note_byte`,
which fails on out-of-range nibble values, but a bass-byte decode failure
does not yield `Unrecognized` — the figure is emitted without a bass
suffix instead. -/
theorem c1_subfield_failure :
    (∀ cb : List Nat, 2 ≤ cb.length → cb.length ≤ 4 →
      XfChordTypes (cb.getD 1 0) = none → parse_xf_chord_sysex cb = none) ∧
    (∀ cb : List Nat, ∀ ts : String, 2 ≤ cb.length → cb.length ≤ 4 →
      XfChordTypes (cb.getD 1 0) = some ts → ts ≠ "N.C." →
      parse_note_byte (cb.getD 0 0) = none → parse_xf_chord_sysex cb = none) ∧
    (∀ cb : List Nat, ∀ ts rs : String, 2 ≤ cb.length → cb.length ≤ 4 →
      XfChordTypes (cb.getD 1 0) = some ts → ts ≠ "N.C." →
      parse_note_byte (cb.getD 0 0) = some rs →
      parse_note_byte (cb.getD 2 127) = none →
      parse_xf_chord_sysex cb = some (rs ++ ts)) := by
  refine ⟨?_, ?_, ?_⟩
  · intro cb h2 h4 hty
    unfold parse_xf_chord_sysex
    rw [if_pos ⟨h2, h4⟩, hty]
  · intro cb ts h2 h4 hty hnc hroot
    unfold parse_xf_chord_sysex
    rw [if_pos ⟨h2, h4⟩, hty]
    simp only [if_neg hnc, hroot]
  · intro cb ts rs h2 h4 hty hnc hroot hbass
    unfold parse_xf_chord_sysex
    rw [if_pos ⟨h2, h4⟩, hty]
    simp only [if_neg hnc, hroot, hbass]

/-- C1 witness: instantiating the amended statement — `(0x31, 0x99)` has
an undecodable type byte, `(0x00, 0x00)` an undecodable root byte (letter
nibble 0), and `(0x31, 0x00, 0x00)` an undecodable bass byte whose
failure yields `"C"` rather than `Unrecognized`. -/
theorem c1_subfield_failure_witness :
    parse_xf_chord_sysex [0x31, 0x99] = none ∧
    parse_xf_chord_sysex [0x00, 0x00] = none ∧
    parse_xf_chord_sysex [0x31, 0x00, 0x00] = some ("C" ++ "") :=
  ⟨c1_subfield_failure.1 [0x31, 0x99] (by decide) (by decide) (by decide),
   c1_subfield_failure.2.1 [0x00, 0x00] "" (by decide) (by decide) (by decide)
     (by decide) (by decide),
   c1_subfield_failure.2.2 [0x31, 0x00, 0x00] "" "C" (by decide) (by decide)
     (by decide) (by decide) (by decide) (by decide)⟩

/-- Message bodies of the merged `mido` stream, as the converter
distinguishes them: channel messages carry a channel number; the
meta-message kinds the converter inspects are `sequencer_specific` (XF
SysEx payload) and the free-text kinds `text`, `lyrics`, `marker`. -/
inductive MsgBody where
  | noteOn (channel pitch velocity : Nat)
  | noteOff (channel pitch velocity : Nat)
  | otherChannel (channel : Nat)
  | sequencerSpecific (data : List Nat)
  | textMeta (s : String)
  | lyricsMeta (s : String)
  | markerMeta (s : String)
  | otherMeta
  deriving DecidableEq

/-- One message of the merged stream: `time` is the delta in ticks from
the previous event (`msg.time` in `mido`). -/
structure Msg where
  time : Nat
  body : MsgBody
  deriving DecidableEq

/-- An opened MIDI file, at the interface the converter consumes:
`ticks_per_beat` plus the single merged, time-ordered message stream
(`mido.merge_tracks(mf.tracks)`). -/
structure MidiFile where
  ticks_per_beat : Nat
  msgs : List Msg

/-- `MelodyNote` — the note data the melody extractor emits
(`note.Note` with `offset` and `duration.quarterLength` set). -/
structure MelodyNote where
  offset : ℚ
  duration : ℚ
  pitch : Nat
  deriving DecidableEq

/-- Scan state of `_parse_melody_with_mido`: the absolute tick
accumulator, the `open_notes` pending table keyed by pitch, and the notes
emitted so far. -/
structure MelState where
  tick : Nat
  openNotes : Nat → Option (Nat × Nat)
  notes : List MelodyNote

/-- One iteration of the `_parse_melody_with_mido` loop: add the delta
time, skip meta messages, and on channel 0 open a pending note on
`note_on` with positive velocity, or close a matching pending note on
`note_off` (any velocity) or `note_on` with velocity 0. -/
def melodyStep (ticks_per_quarter : Nat) (st : MelState) (m : Msg) : MelState :=
  let t := st.tick + m.time
  match m.body with
  | .noteOn ch p v =>
    if ch = 0 then
      if v > 0 then
        { tick := t
          openNotes := fun p' => if p' = p then some (t, v) else st.openNotes p'
          notes := st.notes }
      else
        match st.openNotes p with
        | some (start_tick, _) =>
          { tick := t
            openNotes := fun p' => if p' = p then none else st.openNotes p'
            notes := st.notes ++
              [{ offset := (start_tick : ℚ) / ticks_per_quarter
                 duration := ((t : ℚ) - (start_tick : ℚ)) / ticks_per_quarter
                 pitch := p }] }
        | none => { st with tick := t }
    else { st with tick := t }
  | .noteOff ch p _ =>
    if ch = 0 then
      match st.openNotes p with
      | some (start_tick, _) =>
        { tick := t
          openNotes := fun p' => if p' = p then none else st.openNotes p'
          notes := st.notes ++
            [{ offset := (start_tick : ℚ) / ticks_per_quarter
               duration := ((t : ℚ) - (start_tick : ℚ)) / ticks_per_quarter
               pitch := p }] }
      | none => { st with tick := t }
    else { st with tick := t }
  | _ => { st with tick := t }

/-- Initial melody-scan state. -/
def melInit : MelState := { tick := 0, openNotes := fun _ => none, notes := [] }

/-- The state of the melody scan after a list of messages. -/
def melFold (ticks_per_quarter : Nat) (msgs : List Msg) : MelState :=
  msgs.foldl (melodyStep ticks_per_quarter) melInit

/-- The notes `_parse_melody_with_mido` collects from an already-opened
stream. -/
def parseMelodyList (ticks_per_quarter : Nat) (msgs : List Msg) : List MelodyNote :=
  (melFold ticks_per_quarter msgs).notes

/-- `_parse_melody_with_mido` of the source: it opens the file itself
with no exception handler, so an open failure propagates (is fatal);
otherwise it scans the merged stream for channel-0 note pairs. -/
def parse_melody_with_mido (openResult : Except String MidiFile)
    (ticks_per_quarter : Nat) : Except String (List MelodyNote) :=
  openResult.map fun mf => parseMelodyList ticks_per_quarter mf.msgs

/-- A message is a note-end for pitch `p` on channel 0: an explicit
`note_off`, or a `note_on` with velocity 0. -/
def isNoteEnd (m : Msg) (p : Nat) : Prop :=
  (∃ w, m.body = .noteOff 0 p w) ∨ m.body = .noteOn 0 p 0

/-- A melody-scan step never removes already-emitted notes: it appends. -/
theorem melodyStep_notes_mono (q : Nat) (st : MelState) (m : Msg) :
    ∃ l, (melodyStep q st m).notes = st.notes ++ l := by
  rcases m with ⟨time, body⟩
  cases body <;> simp only [melodyStep] <;> repeat' split
  all_goals first
    | exact ⟨[], (List.append_nil _).symm⟩
    | exact ⟨_, rfl⟩

/-- Folding the melody scan over more messages only appends notes. -/
theorem melFoldl_notes_mono (q : Nat) (msgs : List Msg) :
    ∀ st : MelState, ∃ l, (msgs.foldl (melodyStep q) st).notes = st.notes ++ l := by
  induction msgs with
  | nil => intro st; exact ⟨[], (List.append_nil _).symm⟩
  | cons m ms ih =>
    intro st
    obtain ⟨l1, h1⟩ := melodyStep_notes_mono q st m
    obtain ⟨l2, h2⟩ := ih (melodyStep q st m)
    exact ⟨l1 ++ l2, by rw [List.foldl_cons, h2, h1, List.append_assoc]⟩

/-- Scan-state invariant: every pending start tick is at most the
current absolute tick. -/
def pendingLE (st : MelState) : Prop :=
  ∀ p s v, st.openNotes p = some (s, v) → s ≤ st.tick

/-- A melody step advances the absolute tick by the message delta. -/
theorem melodyStep_tick (q : Nat) (st : MelState) (m : Msg) :
    (melodyStep q st m).tick = st.tick + m.time := by
  rcases m with ⟨time, body⟩
  cases body <;> simp only [melodyStep] <;> repeat' split
  all_goals rfl

/-- One melody step preserves the pending-start invariant. -/
theorem melodyStep_pendingLE (q : Nat) (st : MelState) (m : Msg)
    (h : pendingLE st) : pendingLE (melodyStep q st m) := by
  intro p s v hsome
  rcases m with ⟨time, body⟩
  rw [melodyStep_tick]
  show s ≤ st.tick + time
  have hle : st.tick ≤ st.tick + time := Nat.le_add_right _ _
  cases body <;> simp only [melodyStep] at hsome
  case noteOn ch pp vv =>
    split at hsome
    · split at hsome
      · simp only at hsome
        by_cases hp : p = pp
        · rw [if_pos hp] at hsome
          rw [Option.some_inj] at hsome
          injection hsome with h1 h2
          omega
        · rw [if_neg hp] at hsome
          exact (h p s v hsome).trans hle
      · split at hsome
        · simp only at hsome
          by_cases hp : p = pp
          · rw [if_pos hp] at hsome; exact absurd hsome (by simp)
          · rw [if_neg hp] at hsome
            exact (h p s v hsome).trans hle
        · exact (h p s v hsome).trans hle
    · exact (h p s v hsome).trans hle
  case noteOff ch pp vv =>
    split at hsome
    · split at hsome
      · simp only at hsome
        by_cases hp : p = pp
        · rw [if_pos hp] at hsome; exact absurd hsome (by simp)
        · rw [if_neg hp] at hsome
          exact (h p s v hsome).trans hle
      · exact (h p s v hsome).trans hle
    · exact (h p s v hsome).trans hle
  all_goals exact (h p s v hsome).trans hle

/-- The melody fold satisfies the pending-start invariant. -/
theorem melFold_pendingLE (q : Nat) (msgs : List Msg) : pendingLE (melFold q msgs) := by
  have : ∀ st : MelState, pendingLE st → pendingLE (msgs.foldl (melodyStep q) st) := by
    induction msgs with
    | nil => intro st h; exact h
    | cons m ms ih =>
      intro st h
      rw [List.foldl_cons]
      exact ih _ (melodyStep_pendingLE q st m h)
  refine this melInit ?_
  intro p s v hsome
  exact absurd hsome (by simp [melInit])

/-- C5: a pending note `(s, v)` for pitch `p` (opened by a note-start
with non-zero velocity on channel 0) that is closed by a matching
note-end message `m` — an explicit `note_off` or a `note_on` with
velocity 0 — at absolute tick `e = tick + m.time` makes the scan emit
exactly one note with offset `s / q` and duration `(e - s) / q`
(a duration of 0, when the ticks coincide, is emitted like any other),
and that note is in the output of the whole scan; moreover `e ≥ s` holds
automatically for any reachable scan state. -/
theorem c5_note_pair_emission (q : Nat) (pre : List Msg) (m : Msg) (post : List Msg)
    (p s v : Nat)
    (hopen : (melFold q pre).openNotes p = some (s, v))
    (hend : isNoteEnd m p) :
    (melodyStep q (melFold q pre) m).notes = (melFold q pre).notes ++
      [{ offset := (s : ℚ) / q,
         duration := ((((melFold q pre).tick + m.time : Nat) : ℚ) - (s : ℚ)) / q,
         pitch := p }] ∧
    s ≤ (melFold q pre).tick + m.time ∧
    { offset := (s : ℚ) / q,
      duration := ((((melFold q pre).tick + m.time : Nat) : ℚ) - (s : ℚ)) / q,
      pitch := p } ∈ parseMelodyList q (pre ++ m :: post) := by
  have hstep : (melodyStep q (melFold q pre) m).notes = (melFold q pre).notes ++
      [{ offset := (s : ℚ) / q,
         duration := ((((melFold q pre).tick + m.time : Nat) : ℚ) - (s : ℚ)) / q,
         pitch := p }] := by
    rcases hend with ⟨w, hb⟩ | hb
    · rcases m with ⟨time, body⟩
      simp only at hb
      subst hb
      simp [melodyStep, hopen]
    · rcases m with ⟨time, body⟩
      simp only at hb
      subst hb
      simp [melodyStep, hopen]
  refine ⟨hstep, ?_, ?_⟩
  · exact (melFold_pendingLE q pre p s v hopen).trans (Nat.le_add_right _ _)
  · have h1 : parseMelodyList q (pre ++ m :: post) =
        (post.foldl (melodyStep q) (melodyStep q (melFold q pre) m)).notes := by
      unfold parseMelodyList melFold
      rw [List.foldl_append, List.foldl_cons]
    obtain ⟨l2, h2⟩ := melFoldl_notes_mono q post (melodyStep q (melFold q pre) m)
    rw [h1, h2, hstep]
    simp

/-- C5 witness: a note 60 opened at tick 5 with velocity 100 and closed
by an explicit note-off at the same tick 5 (delta 0) yields, with
`ticks_per_quarter = 2`, the single note of offset `5/2` and duration
`(5 - 5)/2 = 0` — the zero duration is emitted, not rejected. -/
theorem c5_note_pair_emission_witness :
    ({ offset := ((5 : Nat) : ℚ) / ((2 : Nat) : ℚ),
       duration := (((5 : Nat) : ℚ) - ((5 : Nat) : ℚ)) / ((2 : Nat) : ℚ),
       pitch := 60 } : MelodyNote) ∈
      parseMelodyList 2 [⟨5, .noteOn 0 60 100⟩, ⟨0, .noteOff 0 60 64⟩] :=
  (c5_note_pair_emission 2 [⟨5, .noteOn 0 60 100⟩] ⟨0, .noteOff 0 60 64⟩ [] 60 5 100
    (by decide) (Or.inl ⟨64, rfl⟩)).2.2

/-- C6: the pending-note table holds at most one entry per pitch, and
(1) a new note-start (non-zero velocity, channel 0) for a pitch
*replaces* any pending entry with the new onset tick while emitting no
note — the earlier onset is discarded; (2) a note-end whose pitch has no
pending entry changes neither the pending table nor the emitted notes —
it is ignored silently; (3) a note-start still pending at the end of the
stream produces no note: appending a trailing note-start to any stream
leaves the scan output unchanged. -/
theorem c6_pending_replacement (q : Nat) :
    (∀ st : MelState, ∀ m : Msg, ∀ p v : Nat, m.body = .noteOn 0 p v → v ≠ 0 →
      (melodyStep q st m).notes = st.notes ∧
      (melodyStep q st m).openNotes p = some (st.tick + m.time, v)) ∧
    (∀ st : MelState, ∀ m : Msg, ∀ p : Nat, isNoteEnd m p → st.openNotes p = none →
      (melodyStep q st m).notes = st.notes ∧
      (melodyStep q st m).openNotes = st.openNotes) ∧
    (∀ msgs : List Msg, ∀ t p v : Nat, v ≠ 0 →
      parseMelodyList q (msgs ++ [⟨t, .noteOn 0 p v⟩]) = parseMelodyList q msgs) := by
  have hstart : ∀ st : MelState, ∀ m : Msg, ∀ p v : Nat, m.body = .noteOn 0 p v → v ≠ 0 →
      (melodyStep q st m).notes = st.notes ∧
      (melodyStep q st m).openNotes p = some (st.tick + m.time, v) := by
    intro st m p v hb hv
    rcases m with ⟨time, body⟩
    simp only at hb
    subst hb
    simp [melodyStep, Nat.pos_of_ne_zero hv]
  refine ⟨hstart, ?_, ?_⟩
  · intro st m p hend hnone
    rcases hend with ⟨w, hb⟩ | hb
    · rcases m with ⟨time, body⟩
      simp only at hb
      subst hb
      simp [melodyStep, hnone]
    · rcases m with ⟨time, body⟩
      simp only at hb
      subst hb
      simp [melodyStep, hnone]
  · intro msgs t p v hv
    unfold parseMelodyList melFold
    rw [List.foldl_append, List.foldl_cons, List.foldl_nil]
    exact (hstart _ ⟨t, .noteOn 0 p v⟩ p v rfl hv).1

/-- C6 witness: a single trailing note-start (pitch 60, velocity 1) that
is never closed produces no melody note at all. -/
theorem c6_pending_replacement_witness :
    parseMelodyList 1 [⟨0, .noteOn 0 60 1⟩] = [] :=
  (c6_pending_replacement 1).2.2 [] 0 60 1 (by decide)

/-- The apostrophe character (U+0027) used for rehearsal repeat-variant
suffixes (`"'" * var_idx` in the source). -/
def apostrophe : Char := Char.ofNat 39

/-- The rehearsal label built from the data byte `rr` in
`_parse_rehe_from_midi`: base label from the low nibble
(`XF_REHE_BASE.get(rr & 0x0F, "?")`) followed by `(rr >> 4) & 0x07`
apostrophes. -/
def xfReheMark (rr : Nat) : String :=
  (XfReheBase (rr &&& 15)).getD "?" ++
    String.mk (List.replicate ((rr >>> 4) &&& 7) apostrophe)

/-- One iteration of the `_parse_rehe_from_midi` loop over the merged
stream: advance the tick; on a `sequencer_specific` message with the XF
header `0x43 0x7B` and event id `0x02`, append `(tick, label)` when a
data byte follows the id, and ignore the event otherwise. -/
def reheStep (st : Nat × List (Nat × String)) (m : Msg) : Nat × List (Nat × String) :=
  let t := st.1 + m.time
  match m.body with
  | .sequencerSpecific data =>
    if data.length > 2 ∧ data.take 2 = [0x43, 0x7B] ∧ data.getD 2 0 = 0x02 then
      if data.length > 3 then (t, st.2 ++ [(t, xfReheMark (data.getD 3 0))])
      else (t, st.2)
    else (t, st.2)
  | _ => (t, st.2)

/-- `_parse_rehe_from_midi` of the source: an open failure is caught and
the function returns the empty list; otherwise the merged stream is
scanned for XF rehearsal marks, returning `(tick, label)` pairs. -/
def parse_rehe_from_midi (openResult : Except String MidiFile) : List (Nat × String) :=
  match openResult with
  | .error _ => []
  | .ok mf => (mf.msgs.foldl reheStep (0, [])).2

/-- C8: for every rehearsal data byte `rr` the decoder produces
`base ++ v` apostrophes, where the low 4 bits of `rr` index the fixed
16-entry base table (which always hits: the table covers indices 0–15)
and bits 4–6 give the variant count `v ∈ [0,7]`; a rehearsal event whose
payload carries a data byte appends exactly that `(tick, label)` pair;
a rehearsal event with no data byte after the id is ignored, not an
error; and byte `0x13` decodes to `"A'"`. -/
theorem c8_rehearsal_decode :
    (∀ rr : Nat, ∃ base : String, XfReheBase (rr &&& 15) = some base ∧
      xfReheMark rr = base ++ String.mk (List.replicate ((rr >>> 4) &&& 7) apostrophe) ∧
      (rr >>> 4) &&& 7 ≤ 7) ∧
    (∀ st : Nat × List (Nat × String), ∀ m : Msg, ∀ rr : Nat, ∀ rest : List Nat,
      m.body = .sequencerSpecific (0x43 :: 0x7B :: 0x02 :: rr :: rest) →
      (reheStep st m).2 = st.2 ++ [(st.1 + m.time, xfReheMark rr)]) ∧
    (∀ st : Nat × List (Nat × String), ∀ m : Msg,
      m.body = .sequencerSpecific [0x43, 0x7B, 0x02] →
      (reheStep st m).2 = st.2) ∧
    xfReheMark 0x13 = String.mk ['A', apostrophe] := by
  refine ⟨?_, ?_, ?_, by decide⟩
  · intro rr
    have hlt : rr &&& 15 < 16 := Nat.lt_succ_of_le (Nat.and_le_right)
    have hlen : rr &&& 15 < XfReheBaseTable.length := by
      simpa [XfReheBaseTable] using hlt
    refine ⟨XfReheBaseTable.get ⟨rr &&& 15, hlen⟩, ?_, ?_, Nat.and_le_right⟩
    · exact List.get?_eq_get hlen
    · unfold xfReheMark XfReheBase
      rw [List.get?_eq_get hlen]
      rfl
  · intro st m rr rest hb
    rcases m with ⟨time, body⟩
    simp only at hb
    subst hb
    simp only [reheStep]
    rw [if_pos ⟨by simp, rfl, rfl⟩, if_pos (by simp)]
    rfl
  · intro st m hb
    rcases m with ⟨time, body⟩
    simp only at hb
    subst hb
    simp [reheStep]

/-- C8 witness: a rehearsal event carrying data byte `0x13` at delta 7
appends the pair `(7, "A" ++ one apostrophe)`; the low nibble 3 selects
base `"A"` and the variant bits give one apostrophe. -/
theorem c8_rehearsal_decode_witness :
    (reheStep (0, []) ⟨7, .sequencerSpecific [0x43, 0x7B, 0x02, 0x13]⟩).2 =
      [(7, xfReheMark 0x13)] ∧ xfReheMark 0x13 = String.mk ['A', apostrophe] :=
  ⟨c8_rehearsal_decode.2.1 (0, []) ⟨7, .sequencerSpecific [0x43, 0x7B, 0x02, 0x13]⟩
    0x13 [] rfl,
   c8_rehearsal_decode.2.2.2⟩

/-- Python regex word character (`\w`, ASCII): letter, digit or underscore. -/
def isWordChar (c : Char) : Bool := c.isAlphanum || c = '_'

/-- Word-character status of an optional preceding character (string
boundaries count as non-word). -/
def wordOpt : Option Char → Bool
  | some c => isWordChar c
  | none => false

/-- The `\b` assertion between the previous character and `c`. -/
def boundaryBefore (prev : Option Char) (c : Char) : Bool :=
  wordOpt prev != isWordChar c

/-- The `\b` assertion after a token ending in `lastChar`, before `rest`. -/
def boundaryAfterTok (lastChar : Char) (rest : List Char) : Bool :=
  isWordChar lastChar != (match rest with | c :: _ => isWordChar c | [] => false)

/-- Uppercase note letter `A`–`G`. -/
def letterAG (c : Char) : Bool := 'A' ≤ c && c ≤ 'G'

/-- The `simplify_enharmonics` replacement map of the source: rewrite
the listed enharmonic spellings, leave every other matched token as is. -/
def enharmonicMap (tok : List Char) : List Char :=
  if tok = ['E', '#'] then ['F']
  else if tok = ['B', '#'] then ['C']
  else if tok = ['F', 'b'] then ['E']
  else if tok = ['C', 'b'] then ['B']
  else if tok = ['D', 'b', 'b'] then ['C']
  else if tok = ['E', 'b', 'b'] then ['D']
  else if tok = ['G', 'b', 'b'] then ['F']
  else if tok = ['A', 'b', 'b'] then ['G']
  else if tok = ['B', 'b', 'b'] then ['A']
  else tok

/-- The `re.sub(r'\b[A-G](?:bb|##|b|#)\b', simplify_enharmonics, ...)`
pass of the source, as a left-to-right scan carrying the previous
(original) character for the `\b` tests.  At a candidate letter the
alternatives `bb`, `##`, `b`, `#` are tried in the regex order; when the
two-character alternative fails only because of the trailing `\b`, the
one-character alternative necessarily fails its `\b` too (the following
character is the same word character `b`/non-word `#`), so the scan
copies the letter and moves on exactly as the backtracking engine does. -/
def sub1 : Option Char → List Char → List Char
  | _, [] => []
  | prev, c :: 'b' :: 'b' :: r =>
    if letterAG c && boundaryBefore prev c && boundaryAfterTok 'b' r then
      enharmonicMap [c, 'b', 'b'] ++ sub1 (some 'b') r
    else c :: sub1 (some c) ('b' :: 'b' :: r)
  | prev, c :: 'b' :: r =>
    if letterAG c && boundaryBefore prev c && boundaryAfterTok 'b' r then
      enharmonicMap [c, 'b'] ++ sub1 (some 'b') r
    else c :: sub1 (some c) ('b' :: r)
  | prev, c :: '#' :: '#' :: r =>
    if letterAG c && boundaryBefore prev c && boundaryAfterTok '#' r then
      enharmonicMap [c, '#', '#'] ++ sub1 (some '#') r
    else c :: sub1 (some c) ('#' :: '#' :: r)
  | prev, c :: '#' :: r =>
    if letterAG c && boundaryBefore prev c && boundaryAfterTok '#' r then
      enharmonicMap [c, '#'] ++ sub1 (some '#') r
    else c :: sub1 (some c) ('#' :: r)
  | _, c :: r => c :: sub1 (some c) r

/-- `figure.replace("add9", "add2")` of the source: Python `str.replace`
for this pattern — all non-overlapping occurrences, left to right. -/
def replace_add9 : List Char → List Char
  | 'a' :: 'd' :: 'd' :: '9' :: r => 'a' :: 'd' :: 'd' :: '2' :: replace_add9 r
  | c :: r => c :: replace_add9 r
  | [] => []

/-- `figure.replace("m7(11)", "m11")` of the source. -/
def replace_m7p11 : List Char → List Char
  | 'm' :: '7' :: '(' :: '1' :: '1' :: ')' :: r => 'm' :: '1' :: '1' :: replace_m7p11 r
  | c :: r => c :: replace_m7p11 r
  | [] => []

/-- `figure.replace("m(maj7,9)", "m(maj9)")` of the source. -/
def replace_mmaj79 : List Char → List Char
  | 'm' :: '(' :: 'm' :: 'a' :: 'j' :: '7' :: ',' :: '9' :: ')' :: r =>
    'm' :: '(' :: 'm' :: 'a' :: 'j' :: '9' :: ')' :: replace_mmaj79 r
  | c :: r => c :: replace_mmaj79 r
  | [] => []

/-- `figure.replace("bb", "--")` of the source. -/
def replace_bb : List Char → List Char
  | 'b' :: 'b' :: r => '-' :: '-' :: replace_bb r
  | c :: r => c :: replace_bb r
  | [] => []

/-- `figure.replace("b", "-")` of the source. -/
def replace_b : List Char → List Char
  | 'b' :: r => '-' :: replace_b r
  | c :: r => c :: replace_b r
  | [] => []

/-- `_normalize_chord_figure` of the source: empty figures and the
`"N.C."` sentinel pass through; otherwise (1) the enharmonic regex pass,
(2) the alternate-quality rewrites `add9`→`add2`, `m7(11)`→`m11`,
`m(maj7,9)`→`m(maj9)`, and (3) the flat rewrites `bb`→`--` then
`b`→`-`, in that order. -/
def normalize_chord_figure (figure : String) : String :=
  if figure = "" || figure = "N.C." then figure
  else
    String.mk (replace_b (replace_bb (replace_mmaj79 (replace_m7p11 (replace_add9
      (sub1 none figure.data))))))

/-- C7 counterexample: the normalizer is not idempotent on every figure.
For `"bE#m"` the first pass leaves the enharmonic token alone (no word
boundary before `E` after the word character `b`) and then rewrites the
flat marker, giving `"-E#m"`; the second pass now sees a word boundary
created by `-` and rewrites `E#` to `F`, giving `"-Fm"`. -/
theorem c7_counterexample :
    normalize_chord_figure (normalize_chord_figure "bE#m") ≠
      normalize_chord_figure "bE#m" := by
  decide

/-- The tested chord figures: every chord-type of the table on root C,
plus representative flat, sharp, enharmonic and slash-bass spellings. -/
def testedChordFigures : List String :=
  ["C", "C6", "Cmaj7", "Cmaj7(#11)", "Cadd9", "Cmaj9", "C6(9)", "Caug",
   "Cm", "Cm6", "Cm7", "Cm7b5", "Cm(add9)", "Cm9", "Cm11", "Cm(maj7)",
   "Cm(maj7,9)", "Cdim", "Cdim7", "C7", "C7sus4", "C7b5", "C7(9)",
   "C7(#11)", "C7(13)", "C7(b9)", "C7(b13)", "C7(#9)", "Cmaj7aug",
   "C7aug", "C1+8", "C1+5", "Csus4", "C1+2+5", "N.C.", "Dbm7", "Ebadd9",
   "F#m", "Gbb", "Abmaj7", "Bbm7b5", "C#dim", "Dmaj7/G#", "Cm7/Bb",
   "Gbb6", "E#m", "B#dim", "Fbmaj7", "Cb/G#", "Dbb", "A/E", ""]

/-- C7 (amended): the chord-figure normalizer is idempotent on the
tested figures — every chord-type of the table on root C together with
flat/sharp/enharmonic/slash spellings — but not on every input string
(see the counterexample `"bE#m"`). -/
theorem c7_idempotent_on_tested :
    (testedChordFigures.all fun f =>
      normalize_chord_figure (normalize_chord_figure f) == normalize_chord_figure f) = true := by
  decide

/-- List-of-characters prefix test. -/
def isPre : List Char → List Char → Bool
  | [], _ => true
  | _ :: _, [] => false
  | a :: as, b :: bs => a == b && isPre as bs

/-- The `\b` assertion of the text-chord regex at position `e` of the
character list `l` (used at the end of the candidate, so `e ≥ 1`). -/
def wbAt (l : List Char) (e : Nat) : Bool :=
  (match l.get? (e - 1) with | some c => isWordChar c | none => false) !=
    (match l.get? e with | some c => isWordChar c | none => false)

/-- End positions for `[b#]?` starting at `j`, in the backtracking
engine's preference order (consume first, then skip). -/
def accOpts (l : List Char) (j : Nat) : List Nat :=
  match l.get? j with
  | some c => if c = 'b' || c = '#' then [j + 1, j] else [j]
  | none => [j]

/-- The quality alternatives of the text-chord regex
`(?:maj|min|m|M|dim|aug|sus|add|[-_])?`, in source order. -/
def qualityTokens : List (List Char) :=
  [['m', 'a', 'j'], ['m', 'i', 'n'], ['m'], ['M'], ['d', 'i', 'm'],
   ['a', 'u', 'g'], ['s', 'u', 's'], ['a', 'd', 'd'], ['-'], ['_']]

/-- End positions for the optional quality token at `j`: each matching
alternative in order, then the empty option. -/
def qualOpts (l : List Char) (j : Nat) : List Nat :=
  (qualityTokens.filterMap fun q =>
    if isPre q (l.drop j) then some (j + q.length) else none) ++ [j]

/-- End positions for `[0-9]*` at `j`: greedy, longest first. -/
def digitOpts (l : List Char) (j : Nat) : List Nat :=
  (List.range (((l.drop j).takeWhile Char.isDigit).length + 1)).map
    fun k => j + ((l.drop j).takeWhile Char.isDigit).length - k

/-- End positions for `(?:\(.*\))?` at `k`: when `(` is present, each
closing `)` before the next newline from the farthest to the nearest
(greedy `.*`), then the group-absent option. -/
def parenOpts (l : List Char) (k : Nat) : List Nat :=
  if l.get? k = some '(' then
    (((List.range ((k + 1 + ((l.drop (k + 1)).takeWhile (fun c => c ≠ '\n')).length)
          - (k + 1))).map
        fun t => k + 1 + ((l.drop (k + 1)).takeWhile (fun c => c ≠ '\n')).length - 1 - t).filter
      fun m => l.get? m = some ')').map (fun m => m + 1) ++ [k]
  else [k]

/-- End positions for `(?:/[A-G][b#]?)?` at `t`: the group-present
options (with the accidental consumed first) and then the absent one. -/
def slashOpts (l : List Char) (t : Nat) : List Nat :=
  (if l.get? t = some '/' then
    match l.get? (t + 1) with
    | some c =>
      if letterAG c then
        match l.get? (t + 2) with
        | some c2 => if c2 = 'b' || c2 = '#' then [t + 3, t + 2] else [t + 2]
        | none => [t + 2]
      else []
    | none => []
  else []) ++ [t]

/-- All candidate end positions of the capture group starting at the
letter position `i`, in the regex engine's backtracking order. -/
def g1Ends (l : List Char) (i : Nat) : List Nat :=
  (accOpts l (i + 1)).flatMap fun j =>
    (qualOpts l j).flatMap fun j2 =>
      (digitOpts l j2).flatMap fun k =>
        (parenOpts l k).flatMap fun t => slashOpts l t

/-- The first match of the text-chord regex
`[^A-G]*([A-G][b#]?(?:maj|min|m|M|dim|aug|sus|add|[-_])?[0-9]*(?:\(.*\))?(?:/[A-G][b#]?)?)\b`
(`re.search`, group 1): the leading `[^A-G]*` makes the engine try the
capture group at each letter position in order, keeping the first
candidate whose trailing `\b` holds. -/
def firstTextCandidate (text : String) : Option String :=
  (List.range text.data.length).findSome? fun i =>
    match text.data.get? i with
    | some c =>
      if letterAG c then
        match (g1Ends text.data i).find? (fun e => wbAt text.data e) with
        | some e => some (String.mk ((text.data.drop i).take (e - i)))
        | none => none
      else none
    | none => none

/-- The text branch of `_parse_chords_from_midi` (lines 222–233): search
the stripped text once, pass the candidate substring to the external
chord-symbol validator (`harmony.ChordSymbol`), keep it on success and
discard it silently on failure. -/
def textEventChord (validate : String → Bool) (text : String) : Option String :=
  match firstTextCandidate text with
  | some cand => if validate cand then some cand else none
  | none => none

/-- C9 counterexample: with a validator that rejects `"Cmaj"` and accepts
`"Dm"`, the text `"Cmaj Dm"` yields no chord at all — after `"Cmaj"`
(the first and only regex match tried) fails validation, the later valid
chord-like substring `"Dm"` is never tried, although on its own it would
be accepted. -/
theorem c9_counterexample :
    firstTextCandidate "Cmaj Dm" = some "Cmaj" ∧
    textEventChord (fun s => s == "Dm") "Cmaj Dm" = none ∧
    textEventChord (fun s => s == "Dm") "Dm" = some "Dm" := by
  refine ⟨by decide, by decide, by decide⟩

/-- C9 (amended): for every free-text meta-event, the heuristic passes
the first regex match — and only it — to the external chord-symbol
validator: when validation fails the candidate is discarded without
error and the event contributes no chord (no later chord-like substring
of the same text is tried; the event-stream scan simply continues), and
when validation succeeds that candidate is the chord used. -/
theorem c9_first_match_only (validate : String → Bool) (text cand : String)
    (h : firstTextCandidate text = some cand) :
    (validate cand = false → textEventChord validate text = none) ∧
    (validate cand = true → textEventChord validate text = some cand) := by
  constructor <;> intro hv <;> unfold textEventChord <;> rw [h] <;> simp [hv]

/-- C9 witness: instantiating the amended statement at the text
`"Cmaj Dm"` with the validator accepting only `"Dm"`: the first match
`"Cmaj"` fails validation, so the event yields no chord. -/
theorem c9_first_match_only_witness :
    textEventChord (fun s => s == "Dm") "Cmaj Dm" = none :=
  (c9_first_match_only (fun s => s == "Dm") "Cmaj Dm" "Cmaj" (by decide)).1 (by decide)

/-- Python `str.strip()`: drop whitespace from both ends. -/
def pyStrip (s : String) : String :=
  String.mk (((s.data.dropWhile Char.isWhitespace).reverse.dropWhile
    Char.isWhitespace).reverse)

/-- A chord event as `_parse_chords_from_midi` creates it: either the
`harmony.NoChord` object for the `"N.C."` sentinel, or a
`harmony.ChordSymbol` built from the normalized figure. -/
inductive ChordObj where
  | noChord
  | chordSymbol (figure : String)
  deriving DecidableEq

/-- The XF SysEx chord branch of the `_parse_chords_from_midi` loop:
header `0x43 0x7B`, event id `0x01`, payload after the id with `0x7F`
separators filtered out; an empty filtered payload skips the event, and
otherwise the payload goes to `_parse_xf_chord_sysex`. -/
def xfChordCurrentText (data : List Nat) : Option String :=
  if data.length > 2 ∧ data.take 2 = [0x43, 0x7B] ∧ data.getD 2 0 = 0x01 then
    if (data.drop 3).filter (fun b => b ≠ 0x7F) = [] then none
    else parse_xf_chord_sysex ((data.drop 3).filter (fun b => b ≠ 0x7F))
  else none

/-- One iteration of the `_parse_chords_from_midi` loop: advance the
tick, extract a candidate chord text from an XF SysEx event or a
stripped non-empty `text`/`lyrics`/`marker` meta-event, and append the
chord object — `NoChord` for the sentinel, otherwise the symbol built
from the normalized figure when the external constructor (`validate`)
accepts it; every failure just skips the event. -/
def chordStep (validate : String → Bool) (ticks_per_quarter : Nat)
    (st : Nat × List (ℚ × ChordObj)) (m : Msg) : Nat × List (ℚ × ChordObj) :=
  let t := st.1 + m.time
  match
    match m.body with
    | .sequencerSpecific data => xfChordCurrentText data
    | .textMeta s => if pyStrip s ≠ "" then textEventChord validate (pyStrip s) else none
    | .lyricsMeta s => if pyStrip s ≠ "" then textEventChord validate (pyStrip s) else none
    | .markerMeta s => if pyStrip s ≠ "" then textEventChord validate (pyStrip s) else none
    | _ => none
  with
  | none => (t, st.2)
  | some c =>
    if c = "N.C." then
      (t, st.2 ++ [((t : ℚ) / ticks_per_quarter, ChordObj.noChord)])
    else
      if validate (normalize_chord_figure c) then
        (t, st.2 ++ [((t : ℚ) / ticks_per_quarter,
          ChordObj.chordSymbol (normalize_chord_figure c))])
      else (t, st.2)

/-- `_parse_chords_from_midi` of the source: an open failure is caught,
an error is printed and the empty list is returned (the caller
continues); otherwise the merged stream is scanned for chords. -/
def parse_chords_from_midi (validate : String → Bool)
    (openResult : Except String MidiFile) (ticks_per_quarter : Nat) :
    List (ℚ × ChordObj) :=
  match openResult with
  | .error _ => []
  | .ok mf => (mf.msgs.foldl (chordStep validate ticks_per_quarter) (0, [])).2

/-- `create_lead_sheet` of the source, at the level of its error
handling: the initial open of the input file is guarded by a
`try`/`sys.exit(1)` (modelled as `Except.error`), the melody parse opens
the file again with no handler so its open failure propagates, and the
chord parse recovers from its own open failure by returning no chords
while the operation continues to completion. -/
def create_lead_sheet (validate : String → Bool)
    (openMeta openMelody openChords : Except String MidiFile) :
    Except String (List (ℚ × ChordObj) × List MelodyNote) :=
  match openMeta with
  | .error e => .error e
  | .ok mf =>
    match parse_melody_with_mido openMelody mf.ticks_per_beat with
    | .error e => .error e
    | .ok notes =>
      .ok (parse_chords_from_midi validate openChords mf.ticks_per_beat, notes)

/-- C10 counterexample: a stream-open failure in the chord-extraction
scan does not abort the operation — the lead-sheet operation completes
with an `ok` result (and no chords) even though opening the stream for
the chord scan failed. -/
theorem c10_counterexample :
    create_lead_sheet (fun _ => true) (.ok ⟨480, []⟩) (.ok ⟨480, []⟩)
      (.error "missing") = .ok ([], []) := by
  rfl

/-- C10 (amended): a stream-open failure is fatal in the initial open
and in the melody scan of the lead-sheet operation (the error
propagates and aborts), but in the chord and rehearsal extraction scans
an open failure is caught and yields an empty result with the operation
continuing; every per-event decode failure (an XF chord event whose
payload does not decode) is recovered locally by skipping that event. -/
theorem c10_open_failure_handling :
    (∀ validate : String → Bool, ∀ o2 o3 : Except String MidiFile, ∀ e : String,
      create_lead_sheet validate (.error e) o2 o3 = .error e) ∧
    (∀ validate : String → Bool, ∀ mf : MidiFile, ∀ o3 : Except String MidiFile,
      ∀ e : String, create_lead_sheet validate (.ok mf) (.error e) o3 = .error e) ∧
    (∀ validate : String → Bool, ∀ q : Nat, ∀ e : String,
      parse_chords_from_midi validate (.error e) q = []) ∧
    (∀ e : String, parse_rehe_from_midi (.error e) = []) ∧
    (∀ validate : String → Bool, ∀ q : Nat, ∀ st : Nat × List (ℚ × ChordObj),
      ∀ m : Msg, ∀ data : List Nat,
      m.body = .sequencerSpecific data → xfChordCurrentText data = none →
      (chordStep validate q st m).2 = st.2) := by
  refine ⟨fun _ _ _ _ => rfl, fun _ _ _ _ => rfl, fun _ _ _ => rfl, fun _ => rfl, ?_⟩
  intro validate q st m data hb hnone
  rcases m with ⟨time, body⟩
  simp only at hb
  subst hb
  simp only [chordStep, hnone]

/-- C10 witness: an open failure in the chord scan returns the empty
chord list (locally recovered), instantiating the amended statement. -/
theorem c10_open_failure_handling_witness :
    parse_chords_from_midi (fun _ => true) (.error "missing") 480 = [] :=
  c10_open_failure_handling.2.2.1 (fun _ => true) 480 "missing"
